import Mathlib

set_option autoImplicit false

/-
Verification development for the llm-pet orchestration substrate:
a shallow embedding of the TaskManager / ThreadedWorker / PluginManager
logic of src/framework/event.py, src/framework/worker.py and
src/framework/plugin.py, together with theorems settling the spec claims.
-/

namespace LlmPet

/-
Python dict model.  TaskManager.tasks is a Python dict keyed by task name;
a dict preserves insertion order, updating an existing key in place.
We model it as an association list whose keys are distinct.
-/

def dictGet {α : Type} (k : String) : List (String × α) → Option α
  | [] => none
  | (k2, v) :: rest => if k2 = k then some v else dictGet k rest

def dictInsert {α : Type} (k : String) (v : α) : List (String × α) → List (String × α)
  | [] => [(k, v)]
  | (k2, v2) :: rest => if k2 = k then (k, v) :: rest else (k2, v2) :: dictInsert k v rest

def dictPop {α : Type} (k : String) : List (String × α) → List (String × α)
  | [] => []
  | (k2, v2) :: rest => if k2 = k then rest else (k2, v2) :: dictPop k rest

def KeysDistinct {α : Type} (l : List (String × α)) : Prop :=
  (l.map Prod.fst).Nodup

instance {α : Type} (l : List (String × α)) : Decidable (KeysDistinct l) := by
  unfold KeysDistinct; infer_instance

/-
Task model (src/framework/event.py, class Task).
Task.merge returns (Self, msg) to replace, (None, None) to absorb the new
submission, or raises (the base class body is a bare raise).  We keep the
task type abstract and package name/merge as operations.
-/

inductive MergeRes (τ : Type) where
  | merged (t : τ) (msg : Option String)
  | absorbed
  | raises
  deriving DecidableEq

structure TaskOps (τ : Type) where
  name : τ → String
  merge : τ → τ → MergeRes τ

/-
Observable effects of TaskManager.add_task, in program order:
cancel of the running asyncio task, creation (start) of a task_wrapper
task, and the trigger_event broadcast of a NewTaskEvent.
-/

inductive Effect (τ : Type) where
  | cancel (name : String)
  | start (name : String)
  | newTaskEvent (old : Option τ) (new : τ) (msg : Option String)
  deriving DecidableEq

def Effect.isNewTaskEvent {τ : Type} : Effect τ → Bool
  | .newTaskEvent _ _ _ => true
  | _ => false

def Effect.isStart {τ : Type} : Effect τ → Bool
  | .start _ => true
  | _ => false

/-
Result of one add_task call: either a normal return or an escaped
exception (raised), each carrying the tasks dict afterwards and the
effects performed before the return/raise.
-/

inductive AddResult (τ : Type) where
  | ok (tasks : List (String × τ)) (effects : List (Effect τ))
  | raised (tasks : List (String × τ)) (effects : List (Effect τ))
  deriving DecidableEq

def AddResult.resTasks {τ : Type} : AddResult τ → List (String × τ)
  | .ok ts _ => ts
  | .raised ts _ => ts

def AddResult.resEffects {τ : Type} : AddResult τ → List (Effect τ)
  | .ok _ es => es
  | .raised _ es => es

/-
TaskManager.add_task (src/framework/event.py lines 100-116), traced
line by line:
  old_task, running_old_task = cls.tasks.get(new_task.name, (None, None))
  if old_task is not None:
      merged_task, msg = new_task.merge(old_task)   -- may raise
      if merged_task is None: return                -- absorbed, no effects
      if running_old_task is not None: running_old_task.cancel()
      new_task = merged_task
  else:
      msg = None
  cls.tasks[new_task.name] = (new_task, create_task(task_wrapper(new_task)))
  cls.trigger_event(NewTaskEvent(old_task, new_task, msg))
Every stored entry always carries a running handle, so the cancel guard
is always taken in the merged branch.
-/

def add_task {τ : Type} (ops : TaskOps τ) (tasks : List (String × τ)) (new_task : τ) :
    AddResult τ :=
  match dictGet (ops.name new_task) tasks with
  | some old_task =>
    match ops.merge new_task old_task with
    | .raises => .raised tasks []
    | .absorbed => .ok tasks []
    | .merged merged_task msg =>
      .ok (dictInsert (ops.name merged_task) merged_task tasks)
        [.cancel (ops.name new_task),
         .start (ops.name merged_task),
         .newTaskEvent (some old_task) merged_task msg]
  | none =>
    .ok (dictInsert (ops.name new_task) new_task tasks)
      [.start (ops.name new_task),
       .newTaskEvent none new_task none]

/-
TaskManager.task_wrapper (src/framework/event.py lines 83-90):
  try: await task.execute()
  except asyncio.CancelledError: pass
  else: cls.tasks.pop(task.name)
The pop sits in the else clause, so it runs only on normal completion.
On an unexpected error the exception escapes the wrapper (second
component true) and the dict is left untouched; on cancellation the
exception is swallowed and the dict is also left untouched.
-/

inductive ExecOutcome where
  | ok
  | cancelled
  | error
  deriving DecidableEq

def task_wrapper {τ : Type} (name : String) (outcome : ExecOutcome)
    (tasks : List (String × τ)) : List (String × τ) × Bool :=
  match outcome with
  | .ok => (dictPop name tasks, false)
  | .cancelled => (tasks, false)
  | .error => (tasks, true)

/-
TaskManager.trigger_event (src/framework/event.py lines 129-135):
  for task, _ in cls.tasks.values(): task.on_event(event)
  for cb in cls.event_callbacks.values(): cb(event)
We record the delivery trace: the recipients in the order the two loops
visit them.  Both dicts iterate in insertion (registration) order.
-/

inductive Recipient where
  | taskHook (name : String)
  | callback (key : String)
  deriving DecidableEq

def trigger_event {τ : Type} (tasks : List (String × τ)) (callbacks : List String) :
    List Recipient :=
  tasks.map (fun p => Recipient.taskHook p.1) ++ callbacks.map Recipient.callback

/-
ThreadedWorker.submit_task (src/framework/worker.py lines 25-44).
The behaviour of the submitted fn, as observable by the bridge:
it returns a plain value, raises synchronously, or returns a coroutine
that later completes with a value or an error.
-/

inductive FnBehavior (α : Type) where
  | syncVal (v : α)
  | syncErr (e : String)
  | coro (outcome : Except String α)

inductive FutureState (α : Type) where
  | pending
  | value (v : α)
  | error (e : String)
  deriving DecidableEq

/-
The done callback attached to the coroutine handle:
  lambda f: future.set_result(f.result())
When the coroutine failed, f.result() re-raises the error inside the
callback body, so set_result is never reached and the exception is
swallowed by the callback machinery: the future is left as it was.
-/

def coro_done_callback {α : Type} (future : FutureState α) (outcome : Except String α) :
    FutureState α :=
  match outcome with
  | .ok v => FutureState.value v
  | .error _ => future

def submit_task {α : Type} (fn : FnBehavior α) : FutureState α :=
  match fn with
  | .syncVal v => FutureState.value v
  | .syncErr e => FutureState.error e
  | .coro outcome => coro_done_callback FutureState.pending outcome

/-
Plugin model (src/framework/plugin.py).  A plugin class is identified by
a numeric id; supers lists the ids of every class and capability marker
it is a subtype of (itself included), so that
issubclass(c, dep) holds exactly when dep is in c.supers; deps lists the
dependency targets declared by the class.
-/

structure PClass where
  id : Nat
  supers : List Nat
  deps : List Nat
  deriving DecidableEq

def issubclass (c : PClass) (dep : Nat) : Bool :=
  c.supers.contains dep

/-
Python truthiness, needed for the scan condition in
PluginManager.load_all_plugin_classes:
  all(filter(lambda c: not issubclass(c, dep), ordered_plugin_classes))
Here filter yields class objects, and a Python class object is always
truthy; all of an empty iterable is True as well.
-/

def pyTruthy (_c : PClass) : Bool :=
  true

def pyAll (l : List PClass) : Bool :=
  l.all pyTruthy

def scan_cond (ordered : List PClass) (dep : Nat) : Bool :=
  pyAll (ordered.filter (fun c => !(issubclass c dep)))

/-
One pass of the while loop in load_all_plugin_classes
(src/framework/plugin.py lines 198-213): every deferred class whose
scan condition fires for some dependency goes to the new deferred list,
every other class is appended to ordered immediately (later classes of
the same pass see it there).
-/

def scanPass : List PClass → List PClass → List PClass × List PClass
  | ordered, [] => (ordered, [])
  | ordered, pc :: rest =>
    if pc.deps.any (fun dep => scan_cond ordered dep) then
      let r := scanPass ordered rest
      (r.1, pc :: r.2)
    else
      scanPass (ordered ++ [pc]) rest

/-
The while loop: stop when the deferred list is empty; if a pass made no
progress, append the deferred remainder to ordered and stop; otherwise
continue with the new deferred list.  The fuel argument bounds the
number of passes; each productive pass strictly shrinks the deferred
list, so fuel = length + 1 is always enough.
-/

def scanLoop : Nat → List PClass → List PClass → List PClass
  | _, ordered, [] => ordered
  | 0, ordered, missing => ordered ++ missing
  | fuel + 1, ordered, missing =>
    let r := scanPass ordered missing
    if r.2.length = missing.length then r.1 ++ r.2
    else scanLoop fuel r.1 r.2

/-
PluginManager.load_all_plugin_classes (src/framework/plugin.py lines
191-216), ordering part: the discovered classes are first partitioned
(no declared deps go straight to ordered, the rest are deferred), then
the scan loop runs.
-/

def load_all_plugin_classes (discovered : List PClass) : List PClass :=
  let ordered := discovered.filter (fun pc => pc.deps.isEmpty)
  let missing := discovered.filter (fun pc => !pc.deps.isEmpty)
  scanLoop (missing.length + 1) ordered missing

/-
Ordering algorithm as the spec words it, for comparison: a deferred
class is moved into the ordered list exactly when every one of its
declared dependency targets has at least one already-ordered match.
-/

def spec_dep_matched (ordered : List PClass) (dep : Nat) : Bool :=
  ordered.any (fun c => issubclass c dep)

def specScanPass : List PClass → List PClass → List PClass × List PClass
  | ordered, [] => (ordered, [])
  | ordered, pc :: rest =>
    if pc.deps.all (fun dep => spec_dep_matched ordered dep) then
      specScanPass (ordered ++ [pc]) rest
    else
      let r := specScanPass ordered rest
      (r.1, pc :: r.2)

def specScanLoop : Nat → List PClass → List PClass → List PClass
  | _, ordered, [] => ordered
  | 0, ordered, missing => ordered ++ missing
  | fuel + 1, ordered, missing =>
    let r := specScanPass ordered missing
    if r.2.length = missing.length then r.1 ++ r.2
    else specScanLoop fuel r.1 r.2

def spec_load_all (discovered : List PClass) : List PClass :=
  let ordered := discovered.filter (fun pc => pc.deps.isEmpty)
  let missing := discovered.filter (fun pc => !pc.deps.isEmpty)
  specScanLoop (missing.length + 1) ordered missing

/-
Loaded-plugin queries.  A loaded plugin instance is identified with its
class (BasePlugin keeps one instance per class); loadedP says whether a
class currently has an instance.  PluginManager.loaded_plugins (lines
218-225) walks plugin_classes in order keeping classes with an
instance; get_loaded_plugins (lines 315-322) filters those by
isinstance, which for the single instance of class c against target ty
is issubclass c ty.
-/

def loaded_plugins (classes : List PClass) (loadedP : PClass → Bool) : List PClass :=
  classes.filter loadedP

def get_loaded_plugins (classes : List PClass) (loadedP : PClass → Bool) (ty : Nat) :
    List PClass :=
  (loaded_plugins classes loadedP).filter (fun c => issubclass c ty)

/-
PluginManager.check_deps: every declared dependency target has at least
one loaded satisfying instance.
-/

def check_deps (classes : List PClass) (loadedP : PClass → Bool) (target : PClass) : Bool :=
  target.deps.all (fun dep => !(get_loaded_plugins classes loadedP dep).isEmpty)

/-
The loading loop of PluginManager.init (src/framework/plugin.py lines
161-169): walk the ordered classes, loading each enabled class whose
deps check out; a class failing check_deps is skipped with no error.
The accumulator lists the classes loaded so far, which is exactly what
loaded_plugins sees at that point since loading happens in class order.
-/

def initLoad (enabled : PClass → Bool) : List PClass → List PClass → List PClass
  | loaded, [] => loaded
  | loaded, pc :: rest =>
    if enabled pc && check_deps loaded (fun _ => true) pc then
      initLoad enabled (loaded ++ [pc]) rest
    else
      initLoad enabled loaded rest

/-
BasePlugin.dep (src/framework/plugin.py lines 106-110):
  assert dep in self.deps
  d = PluginManager.get_loaded_plugins(dep)
  assert len(d) > 0
  return d[0]
A failed assert is modelled as none.
-/

def dep_lookup (classes : List PClass) (loadedP : PClass → Bool) (self : PClass)
    (target : Nat) : Option PClass :=
  if target ∈ self.deps then
    match get_loaded_plugins classes loadedP target with
    | [] => none
    | d :: _ => some d
  else none

/-
Python object identity for the dispatch condition in
PluginManager.plugin_reload_dispatch (src/framework/plugin.py lines
358-365):
  if cls.get_loaded_plugins(dep) is plugin_class.instance:
get_loaded_plugins returns a freshly constructed list object, and the
is operator between that list and a plugin instance compares object
identity, so the test is False for every input.
-/

def pyIs_list_inst (_l : List PClass) (_inst : PClass) : Bool :=
  false

/-
plugin_reload_dispatch itself: walk plugin_classes from the index of the
reloaded class, skip classes without an instance, and for each declared
dependency target whose dispatch condition fires, record a notification
(dependent class id, dependency target) for the on_dep_load call.
-/

def plugin_reload_dispatch (classes : List PClass) (loadedP : PClass → Bool)
    (target : PClass) : List (Nat × Nat) :=
  (classes.dropWhile (fun c => c != target)).foldl
    (fun acc pc =>
      if loadedP pc then
        acc ++ (pc.deps.filter (fun dep =>
          pyIs_list_inst (get_loaded_plugins classes loadedP dep) target)).map
            (fun dep => (pc.id, dep))
      else acc)
    []

/-
Concrete instances used for counterexamples and witnesses.
-/

inductive DemoTask where
  | first
  | second
  deriving DecidableEq

def demoAbsorbOps : TaskOps DemoTask :=
  ⟨fun _ => "Demo", fun _ _ => MergeRes.absorbed⟩

def demoRaiseOps : TaskOps DemoTask :=
  ⟨fun _ => "Demo", fun _ _ => MergeRes.raises⟩

def demoMergeOps : TaskOps DemoTask :=
  ⟨fun _ => "Demo", fun newT _ => MergeRes.merged newT none⟩

def pX : PClass := ⟨1, [1], []⟩
def pY : PClass := ⟨2, [2], [1]⟩
def pW : PClass := ⟨3, [3], [2]⟩
def pA : PClass := ⟨4, [4], [5]⟩
def pB : PClass := ⟨5, [5], [4]⟩
def pM1 : PClass := ⟨6, [6, 9], []⟩
def pM2 : PClass := ⟨7, [7, 9], []⟩
def pUser : PClass := ⟨8, [8], [9]⟩

/-
Helper lemmas.
-/

theorem keys_dictInsert {α : Type} (k : String) (v : α) :
    ∀ l : List (String × α), (dictInsert k v l).map Prod.fst
      = if k ∈ l.map Prod.fst then l.map Prod.fst else l.map Prod.fst ++ [k] := by
  intro l
  induction l with
  | nil => simp [dictInsert]
  | cons p rest ih =>
    by_cases hk : p.1 = k
    · simp [dictInsert, hk]
    · simp only [dictInsert, hk, if_false, List.map_cons, ih]
      by_cases hmem : k ∈ rest.map Prod.fst
      · rw [if_pos hmem, if_pos (by simp [List.mem_cons, hmem])]
      · rw [if_neg hmem, if_neg (by simp [List.mem_cons, hmem, Ne.symm hk]), List.cons_append]

theorem keysDistinct_dictInsert {α : Type} (k : String) (v : α)
    (l : List (String × α)) (hd : KeysDistinct l) : KeysDistinct (dictInsert k v l) := by
  unfold KeysDistinct at hd ⊢
  rw [keys_dictInsert]
  by_cases hmem : k ∈ l.map Prod.fst
  · rw [if_pos hmem]; exact hd
  · rw [if_neg hmem]
    refine List.Nodup.append hd (List.nodup_singleton k) ?_
    intro a ha hb
    rw [List.mem_singleton.mp hb] at ha
    exact hmem ha

theorem pyAll_eq_true (l : List PClass) : pyAll l = true := by
  simp [pyAll, pyTruthy]

theorem scan_cond_eq_true (ordered : List PClass) (dep : Nat) :
    scan_cond ordered dep = true := by
  simp [scan_cond, pyAll_eq_true]

theorem filter_head_earliest {α : Type} (p : α → Bool) :
    ∀ (l : List α) (c : α) (rest : List α), l.filter p = c :: rest →
      ∃ pre post, l = pre ++ c :: post ∧ (∀ x ∈ pre, p x = false) ∧ p c = true := by
  intro l
  induction l with
  | nil => intro c rest h; simp [List.filter] at h
  | cons a l2 ih =>
    intro c rest h
    by_cases ha : p a = true
    · rw [List.filter_cons_of_pos ha] at h
      injection h with h1 h2
      subst h1
      exact ⟨[], l2, rfl, by simp, ha⟩
    · rw [List.filter_cons_of_neg ha] at h
      rcases ih c rest h with ⟨pre, post, heq, hpre, hc⟩
      refine ⟨a :: pre, post, by rw [heq]; rfl, ?_, hc⟩
      intro x hx
      rcases List.mem_cons.mp hx with hx | hx
      · rw [hx]; exact Bool.eq_false_iff.mpr ha
      · exact hpre x hx

theorem foldl_keeps_acc {α β : Type} (f : β → α → β) (hf : ∀ b a, f b a = b) :
    ∀ (l : List α) (b : β), l.foldl f b = b := by
  intro l
  induction l with
  | nil => intro b; rfl
  | cons a l2 ih => intro b; rw [List.foldl_cons, hf b a]; exact ih b

/-- C1: for every task name at most one task with that name is in the running
set (the keys of TaskManager.tasks stay distinct after a colliding add_task),
and a submission colliding with a running name is either rejected with the
running set unchanged or cancels-and-replaces the running task. -/
theorem add_task_name_unique {τ : Type} (ops : TaskOps τ) (tasks : List (String × τ))
    (t old : τ) (hd : KeysDistinct tasks)
    (hget : dictGet (ops.name t) tasks = some old) :
    KeysDistinct (add_task ops tasks t).resTasks ∧
    ((add_task ops tasks t).resTasks = tasks ∨
      Effect.cancel (ops.name t) ∈ (add_task ops tasks t).resEffects) := by
  cases hm : ops.merge t old with
  | raises =>
    have he : add_task ops tasks t = AddResult.raised tasks [] := by
      simp [add_task, hget, hm]
    rw [he]
    exact ⟨hd, Or.inl rfl⟩
  | absorbed =>
    have he : add_task ops tasks t = AddResult.ok tasks [] := by
      simp [add_task, hget, hm]
    rw [he]
    exact ⟨hd, Or.inl rfl⟩
  | merged m msg =>
    have he : add_task ops tasks t
        = AddResult.ok (dictInsert (ops.name m) m tasks)
            [Effect.cancel (ops.name t), Effect.start (ops.name m),
             Effect.newTaskEvent (some old) m msg] := by
      simp [add_task, hget, hm]
    rw [he]
    exact ⟨keysDistinct_dictInsert _ _ _ hd,
      Or.inr (by simp [AddResult.resEffects])⟩

/-- Witness for add_task_name_unique at a concrete replacing merge. -/
theorem add_task_name_unique_witness :
    KeysDistinct (add_task demoMergeOps [("Demo", DemoTask.first)] DemoTask.second).resTasks ∧
    ((add_task demoMergeOps [("Demo", DemoTask.first)] DemoTask.second).resTasks
        = [("Demo", DemoTask.first)] ∨
      Effect.cancel (demoMergeOps.name DemoTask.second)
        ∈ (add_task demoMergeOps [("Demo", DemoTask.first)] DemoTask.second).resEffects) :=
  add_task_name_unique demoMergeOps [("Demo", DemoTask.first)] DemoTask.second
    DemoTask.first (by decide) (by decide)

/-- C2 counterexample: with a task named Demo running and a merge that absorbs
the new submission, add_task returns with the running set unchanged and an
empty effect list, so no NewTaskEvent is broadcast for that call. -/
theorem add_task_absorb_no_event :
    add_task demoAbsorbOps [("Demo", DemoTask.first)] DemoTask.second
      = AddResult.ok [("Demo", DemoTask.first)] [] ∧
    (add_task demoAbsorbOps [("Demo", DemoTask.first)] DemoTask.second).resEffects.any
      Effect.isNewTaskEvent = false := by
  decide

/-- C2 amended: add_task broadcasts a NewTaskEvent exactly when it starts a
task (first submission or successful merge); when merge absorbs or raises,
no event is broadcast. -/
theorem add_task_event_iff_start {τ : Type} (ops : TaskOps τ)
    (tasks : List (String × τ)) (t : τ) :
    (add_task ops tasks t).resEffects.any Effect.isNewTaskEvent
      = (add_task ops tasks t).resEffects.any Effect.isStart := by
  unfold add_task
  cases hget : dictGet (ops.name t) tasks with
  | none =>
    simp [AddResult.resEffects, Effect.isNewTaskEvent, Effect.isStart]
  | some old =>
    cases hm : ops.merge t old <;>
      simp [hm, AddResult.resEffects, Effect.isNewTaskEvent, Effect.isStart]

/-- C9: when merge is the base Task.merge (a bare raise), a colliding add_task
raises out of the call with the running set unchanged and no effects
performed: the old task stays running and uncancelled, no new task starts,
and no NewTaskEvent is broadcast. -/
theorem add_task_base_merge_raises {τ : Type} (ops : TaskOps τ)
    (tasks : List (String × τ)) (t old : τ)
    (hget : dictGet (ops.name t) tasks = some old)
    (hraise : ops.merge t old = MergeRes.raises) :
    add_task ops tasks t = AddResult.raised tasks [] := by
  simp [add_task, hget, hraise]

/-- Witness for add_task_base_merge_raises at a concrete raising merge. -/
theorem add_task_base_merge_raises_witness :
    add_task demoRaiseOps [("Demo", DemoTask.first)] DemoTask.second
      = AddResult.raised [("Demo", DemoTask.first)] [] :=
  add_task_base_merge_raises demoRaiseOps [("Demo", DemoTask.first)] DemoTask.second
    DemoTask.first (by decide) (by decide)

/-- C4 counterexample: a task whose execute raises an unexpected error leaves
its entry in TaskManager.tasks: the pop sits in the else clause of the
try/except and only runs on normal completion, so the entry is not removed as
the claim states. -/
theorem task_wrapper_error_entry_remains :
    task_wrapper "Demo" ExecOutcome.error [("Demo", DemoTask.first)]
      = ([("Demo", DemoTask.first)], true) ∧
    ("Demo", DemoTask.first) ∈
      (task_wrapper "Demo" ExecOutcome.error [("Demo", DemoTask.first)]).1 := by
  decide

/-- C4 amended: on an unexpected error the exception escapes task_wrapper and
the tasks dict is untouched, so the entry for the failed task remains and no
other task or manager state is affected; cancellation is absorbed as a normal
unwind with nothing reported upward; only normal completion pops the entry. -/
theorem task_wrapper_outcomes {τ : Type} (name : String) (tasks : List (String × τ)) :
    task_wrapper name ExecOutcome.error tasks = (tasks, true) ∧
    task_wrapper name ExecOutcome.cancelled tasks = (tasks, false) ∧
    task_wrapper name ExecOutcome.ok tasks = (dictPop name tasks, false) :=
  ⟨rfl, rfl, rfl⟩

/-- C6: trigger_event delivers the event first to every running task's
on_event hook in registration order, then to every registered callback in
registration order, and with distinct task names and callback keys every
recipient occurs exactly once in the delivery trace. -/
theorem trigger_event_delivery {τ : Type} (tasks : List (String × τ))
    (callbacks : List String) (n k : String)
    (hd : KeysDistinct tasks) (hc : callbacks.Nodup)
    (hn : n ∈ tasks.map Prod.fst) (hk : k ∈ callbacks) :
    trigger_event tasks callbacks
      = tasks.map (fun p => Recipient.taskHook p.1) ++ callbacks.map Recipient.callback ∧
    (trigger_event tasks callbacks).count (Recipient.taskHook n) = 1 ∧
    (trigger_event tasks callbacks).count (Recipient.callback k) = 1 := by
  have hinj1 : Function.Injective Recipient.taskHook := by
    intro a b hab
    injection hab
  have hinj2 : Function.Injective Recipient.callback := by
    intro a b hab
    injection hab
  refine ⟨rfl, ?_, ?_⟩
  · unfold trigger_event
    rw [List.count_append]
    have hzero : (callbacks.map Recipient.callback).count (Recipient.taskHook n) = 0 := by
      rw [List.count_eq_zero]
      intro hmm
      rcases List.mem_map.mp hmm with ⟨a, _, hab⟩
      exact Recipient.noConfusion hab
    have h1 : (tasks.map fun p => Recipient.taskHook p.1)
        = (tasks.map Prod.fst).map Recipient.taskHook := by
      rw [List.map_map]
      rfl
    rw [hzero, h1, List.count_map_of_injective _ _ hinj1,
      List.count_eq_one_of_mem hd hn]
  · unfold trigger_event
    rw [List.count_append]
    have hzero : (tasks.map fun p => Recipient.taskHook p.1).count (Recipient.callback k) = 0 := by
      rw [List.count_eq_zero]
      intro hmm
      rcases List.mem_map.mp hmm with ⟨a, _, hab⟩
      exact Recipient.noConfusion hab
    rw [hzero, List.count_map_of_injective _ _ hinj2,
      List.count_eq_one_of_mem hc hk]

/-- Witness for trigger_event_delivery at two running tasks and two callbacks. -/
theorem trigger_event_delivery_witness :
    trigger_event [("A", DemoTask.first), ("B", DemoTask.second)] ["x", "y"]
      = [("A", DemoTask.first), ("B", DemoTask.second)].map
          (fun p => Recipient.taskHook p.1) ++ ["x", "y"].map Recipient.callback ∧
    (trigger_event [("A", DemoTask.first), ("B", DemoTask.second)] ["x", "y"]).count
      (Recipient.taskHook "A") = 1 ∧
    (trigger_event [("A", DemoTask.first), ("B", DemoTask.second)] ["x", "y"]).count
      (Recipient.callback "y") = 1 :=
  trigger_event_delivery [("A", DemoTask.first), ("B", DemoTask.second)] ["x", "y"]
    "A" "y" (by decide) (by decide) (by decide) (by decide)

/-- C3: the scan condition of load_all_plugin_classes, all applied to
filter(not issubclass, ordered), is always True in Python (class objects are
truthy and all of an empty list is True), so no deferred class is ever moved
during a pass; on the discovery order [pW, pY, pX] (pW depends on pY, pY
depends on pX) the code produces the order [pX, pW, pY] and then init skips
pW, while the rule the claim states produces [pX, pY, pW]; the no-dependency
scenario (pX before pY) does come out right. -/
theorem load_order_scan_cond_dead :
    (∀ (ordered : List PClass) (dep : Nat), scan_cond ordered dep = true) ∧
    load_all_plugin_classes [pW, pY, pX] = [pX, pW, pY] ∧
    initLoad (fun _ => true) [] [pX, pW, pY] = [pX, pY] ∧
    spec_load_all [pW, pY, pX] = [pX, pY, pW] ∧
    load_all_plugin_classes [pX, pY] = [pX, pY] ∧
    initLoad (fun _ => true) [] [pX, pY] = [pX, pY] :=
  ⟨scan_cond_eq_true, by decide, by decide, by decide, by decide, by decide⟩

/-- C8 counterexample: for the dependency cycle pA, pB the scan makes no
progress on its first pass, yet load_all_plugin_classes returns the normal
order [pA, pB] with both cyclic classes in it (startup proceeds, nothing
fatal), and the init loop then silently loads neither of them. -/
theorem cycle_load_proceeds :
    load_all_plugin_classes [pA, pB] = [pA, pB] ∧
    initLoad (fun _ => true) [] [pA, pB] = [] := by
  decide

/-- C8 amended: when a full pass over the deferred classes makes no progress,
the loop appends the deferred remainder to the ordered list and returns
normally (no fatal failure), and a plugin whose dependencies are not loaded at
load time is skipped silently by the init loop. -/
theorem fixed_point_fallback (ordered missing : List PClass) (fuel : Nat)
    (enabled : PClass → Bool) (loaded : List PClass) (pc : PClass) (rest : List PClass)
    (hne : missing ≠ [])
    (hnp : (scanPass ordered missing).2.length = missing.length)
    (hdep : check_deps loaded (fun _ => true) pc = false) :
    scanLoop (fuel + 1) ordered missing
      = (scanPass ordered missing).1 ++ (scanPass ordered missing).2 ∧
    initLoad enabled loaded (pc :: rest) = initLoad enabled loaded rest := by
  constructor
  · cases missing with
    | nil => exact absurd rfl hne
    | cons m ms =>
      simp only [scanLoop]
      rw [if_pos hnp]
  · simp [initLoad, hdep]

/-- Witness for fixed_point_fallback at the two-class dependency cycle. -/
theorem fixed_point_fallback_witness :
    scanLoop 1 [] [pA, pB] = (scanPass [] [pA, pB]).1 ++ (scanPass [] [pA, pB]).2 ∧
    initLoad (fun _ => true) [] (pA :: [pB]) = initLoad (fun _ => true) [] [pB] :=
  fixed_point_fallback [] [pA, pB] 0 (fun _ => true) [] pA [pB]
    (by decide) (by decide) (by decide)

/-- C7: plugin_reload_dispatch never invokes any dependent's on_dep_load hook:
its condition applies Python is to the freshly built list returned by
get_loaded_plugins and the reloaded plugin's instance, which is always False;
at the concrete input where the loaded pY declares a dependency on the
reloaded pX the notification list is empty, and it is empty for every input. -/
theorem plugin_reload_dispatch_no_notify :
    plugin_reload_dispatch [pX, pY] (fun _ => true) pX = [] ∧
    ∀ (classes : List PClass) (loadedP : PClass → Bool) (target : PClass),
      plugin_reload_dispatch classes loadedP target = [] := by
  constructor
  · decide
  · intro classes loadedP target
    unfold plugin_reload_dispatch
    refine foldl_keeps_acc _ ?_ _ _
    intro b pc
    simp [pyIs_list_inst]

/-- C10: dep_lookup on a declared target returns the loaded satisfying
instance of the earliest class in the ordered class list: every class placed
before it is either unloaded or does not satisfy the target. -/
theorem dep_lookup_earliest (classes : List PClass) (loadedP : PClass → Bool)
    (self : PClass) (target : Nat) (c : PClass)
    (h : dep_lookup classes loadedP self target = some c) :
    target ∈ self.deps ∧ loadedP c = true ∧ issubclass c target = true ∧
    ∃ pre post, classes = pre ++ c :: post ∧
      ∀ c2 ∈ pre, loadedP c2 = false ∨ issubclass c2 target = false := by
  unfold dep_lookup at h
  by_cases hmem : target ∈ self.deps
  · rw [if_pos hmem] at h
    cases hg : get_loaded_plugins classes loadedP target with
    | nil =>
      rw [hg] at h
      exact absurd h (by simp)
    | cons d ds =>
      rw [hg] at h
      have hcd : d = c := by injection h
      subst hcd
      have hg2 : classes.filter (fun x => issubclass x target && loadedP x) = d :: ds := by
        rw [← hg]
        unfold get_loaded_plugins loaded_plugins
        rw [List.filter_filter]
      rcases filter_head_earliest _ classes d ds hg2 with ⟨pre, post, heq, hpre, hd2⟩
      have hd3 := Bool.and_eq_true_iff.mp hd2
      refine ⟨hmem, hd3.2, hd3.1, pre, post, heq, ?_⟩
      intro c2 hc2
      have hfalse := hpre c2 hc2
      cases hl : loadedP c2 with
      | false => exact Or.inl rfl
      | true =>
        refine Or.inr ?_
        rw [hl] at hfalse
        simpa using hfalse
  · rw [if_neg hmem] at h
    exact absurd h (by simp)

/-- Witness for dep_lookup_earliest: with pM1 and pM2 both loaded and both
satisfying capability 9, a dependent resolving 9 gets pM1, the earliest. -/
theorem dep_lookup_earliest_witness :
    9 ∈ pUser.deps ∧ (true : Bool) = true ∧ issubclass pM1 9 = true ∧
    ∃ pre post, [pM1, pM2, pUser] = pre ++ pM1 :: post ∧
      ∀ c2 ∈ pre, (fun _ : PClass => true) c2 = false ∨ issubclass c2 9 = false :=
  dep_lookup_earliest [pM1, pM2, pUser] (fun _ => true) pUser 9 pM1 (by decide)

/-- C5: for an asynchronous fn whose coroutine raises, the handle returned by
submit_task stays pending forever: the done callback re-raises the error while
computing the argument of set_result, so the error is never propagated into
the handle; both synchronous paths and the successful coroutine path do
resolve with their single outcome. -/
theorem submit_task_coro_error_pending :
    submit_task (FnBehavior.coro (Except.error "boom") : FnBehavior Nat)
      = FutureState.pending ∧
    submit_task (FnBehavior.coro (Except.ok (7 : Nat))) = FutureState.value 7 ∧
    submit_task (FnBehavior.syncVal (7 : Nat)) = FutureState.value 7 ∧
    submit_task (FnBehavior.syncErr "boom" : FnBehavior Nat) = FutureState.error "boom" :=
  ⟨rfl, rfl, rfl, rfl⟩

end LlmPet
